import Mathlib

/-!
Verification of the operation-dispatch engine of the drjit repository
(apply.cpp: the internal apply(), traverse(), traverse_pair() and transform()
functions that perform operations on drjit arrays and Python object trees).

The definitions below are a shallow embedding of apply.cpp.  Array instances
of one flavor are modelled by their outer element list `List A`; the
per-element recursive application (the Python slot or module function invoked
inside the fallback loop) is a parameter `f : List A -> Option A` returning
`none` when the nested operation fails.  Reference-identity bookkeeping
(which object is returned, how many fresh result objects were allocated,
whether `nb::inst_replace_move` ran) is carried explicitly in result records.
-/

/-- ApplyMode from apply.h (used at lines 120, 147, 156, 170, 197, 210 of
apply.cpp): governs which operand supplies the result flavor, whether the
first operand may be overwritten in place, and which operand is the mask. -/
inductive ApplyMode where
  | Normal
  | InPlace
  | RichCompare
  | Select
deriving DecidableEq, Repr

/-- maxv from apply.cpp lines 106-114: alternative to std::max that also
works when only a single argument is given.  The variadic pack is modelled
as a list; `maxv (a :: rest) = max (maxv rest) a` mirrors
`other > arg ? other : arg`. -/
def maxv : List Nat → Nat
  | [] => 0
  | [a] => a
  | a :: rest => max (maxv rest) a

/-- Separator-joined size list from raise_incompatible_size_error
(apply.cpp lines 87-98): element i is followed by ", " when i+2 < N and by
", and " when i+2 = N. -/
def join_sizes : List Nat → String
  | [] => ""
  | [a] => toString a
  | [a, b] => toString a ++ ", and " ++ toString b
  | a :: rest => toString a ++ ", " ++ join_sizes rest

/-- Message built by raise_incompatible_size_error (apply.cpp lines 87-98). -/
def incompatible_size_msg (sizes : List Nat) : String :=
  "invalid input array sizes (" ++ join_sizes sizes ++ ")"

/-- Element fetch of the fallback loop (apply.cpp lines 234-239 and the index
advance at line 264): at iteration j the per-operand index i[k] has been
advanced by 0 per iteration for length-1 operands and by 1 for all others,
so operand k is read at index 0 when its length is 1 and at index j
otherwise. -/
def fetchRow [Inhabited A] (ops : List (List A)) (j : Nat) : List A :=
  ops.map (fun o => o.getD (if o.length = 1 then 0 else j) default)

/-- The fallback loop of apply.cpp lines 234-265 over the index list
`List.range lr`: fetch the row of operand elements, run the nested
per-element operation, abort at the first failure (raise_if at line 257),
otherwise collect the results in order. -/
def fallback_loop [Inhabited A] (f : List A → Option A) (ops : List (List A)) :
    List Nat → Option (List A)
  | [] => some []
  | j :: js =>
    match f (fetchRow ops j) with
    | none => none
    | some v =>
      match fallback_loop f ops js with
      | none => none
      | some r => some (v :: r)

/-- Outcome record of one run of the generic fallback path: the result
contents (or the propagated error), whether the returned/which result object
is the first operand o[0], how many fresh backing result objects were
allocated with nb::inst_alloc, and whether nb::inst_replace_move replaced
the contents of o[0] after the loop. -/
structure FallbackRun (A : Type) where
  res : Except String (List A)
  resultIsFirst : Bool := false
  freshAllocs : Nat := 0
  moved : Bool := false
deriving Repr

/-- Generic fallback path of apply() for dynamic-length flavors
(apply.cpp lines 169-275, branch s.shape[0] == DRJIT_DYNAMIC with
impl == DRJIT_OP_DEFAULT), for operands already promoted to one common
flavor with o[0] still the original first argument (so `move` starts true
in InPlace mode, line 170).  Steps: per-operand lengths l (line 204),
result length lr = maxv l (line 205), incompatible-size check before any
allocation (lines 207-208), storage reuse decision (lines 210-217: in
InPlace mode with lr == l[0] the result is o[0] itself and move is cleared,
otherwise one fresh result object is allocated and initialized), the
element loop (lines 234-265), and the final move-replacement of o[0]
(lines 270-273) that runs only when the loop completed.  Fixed-size flavors
(lines 193-202) take the same loop with every length equal to s.shape[0]. -/
def apply_fallback [Inhabited A] (mode : ApplyMode) (f : List A → Option A)
    (ops : List (List A)) : FallbackRun A :=
  let l := ops.map List.length
  let lr := maxv l
  if l.any (fun li => li ≠ lr ∧ li ≠ 1) then
    { res := .error (incompatible_size_msg l) }
  else
    let reuse : Bool := decide (mode = ApplyMode.InPlace) && decide (lr = (ops.headD []).length)
    let allocs : Nat := if reuse then 0 else 1
    match fallback_loop f ops (List.range lr) with
    | none =>
      { res := .error "Nested operation failed!", resultIsFirst := reuse,
        freshAllocs := allocs }
    | some r =>
      { res := .ok r, resultIsFirst := decide (mode = ApplyMode.InPlace),
        freshAllocs := allocs,
        moved := decide (mode = ApplyMode.InPlace) && !reuse }

example :
    (apply_fallback .Normal
      (fun xs => some (xs.foldl (· + ·) 0)) [[1, 2, 3], [10]]).res =
    .ok [11, 12, 13] := rfl

example :
    (apply_fallback .Normal (fun xs => some (xs.foldl (· + ·) 0))
      [[1, 2], [10, 20, 30]]).res =
    .error "invalid input array sizes (2, and 3)" := rfl

/-! ### Helper lemmas about the fallback loop -/

theorem fallback_loop_total [Inhabited A] (g : List A → A) (ops : List (List A)) :
    ∀ js : List Nat,
      fallback_loop (fun xs => some (g xs)) ops js =
        some (js.map (fun j => g (fetchRow ops j)))
  | [] => rfl
  | j :: js => by
    simp [fallback_loop, fallback_loop_total g ops js]

theorem le_maxv (l : List Nat) : ∀ x ∈ l, x ≤ maxv l := by
  induction l with
  | nil => simp
  | cons a rest ih =>
    intro x hx
    cases rest with
    | nil =>
      rcases List.mem_singleton.mp hx with rfl
      exact le_refl _
    | cons b r2 =>
      rcases List.mem_cons.mp hx with rfl | h
      · exact le_max_right _ _
      · exact le_trans (ih x h) (le_max_left _ _)

theorem getD_replicate_of_lt [Inhabited A] (x : A) (L j : Nat) (hj : j < L) :
    (List.replicate L x).getD j default = x := by
  simp [List.getD_eq_getElem?_getD, List.getElem?_replicate, hj]

theorem getD_range_map [Inhabited A] (h : Nat → A) (n j : Nat) (hj : j < n) :
    ((List.range n).map h).getD j default = h j := by
  simp [List.getD_eq_getElem?_getD, List.getElem?_map, List.getElem?_range hj]

theorem join_sizes_contains (l : List Nat) :
    ∀ x ∈ l, ∃ p q, join_sizes l = p ++ toString x ++ q := by
  induction l with
  | nil => simp
  | cons a rest ih =>
    intro x hx
    cases rest with
    | nil =>
      rcases List.mem_singleton.mp hx with rfl
      exact ⟨"", "", by simp [join_sizes]⟩
    | cons b r2 =>
      cases r2 with
      | nil =>
        rcases List.mem_cons.mp hx with rfl | h
        · refine ⟨"", ", and " ++ toString b, ?_⟩
          simp [join_sizes, String.append_assoc]
        · rcases List.mem_singleton.mp h with rfl
          exact ⟨toString a ++ ", and ", "", by simp [join_sizes]⟩
      | cons c r3 =>
        rcases List.mem_cons.mp hx with rfl | h
        · refine ⟨"", ", " ++ join_sizes (b :: c :: r3), ?_⟩
          simp [join_sizes, String.append_assoc]
        · rcases ih x h with ⟨p, q, hp⟩
          refine ⟨toString a ++ ", " ++ p, q, ?_⟩
          simp only [join_sizes, hp, String.append_assoc]

theorem incompatible_size_msg_contains (l : List Nat) :
    ∀ x ∈ l, ∃ p q, incompatible_size_msg l = p ++ toString x ++ q := by
  intro x hx
  rcases join_sizes_contains l x hx with ⟨p, q, hp⟩
  exact ⟨"invalid input array sizes (" ++ p, q ++ ")",
    by simp only [incompatible_size_msg, hp, String.append_assoc]⟩

/-- Replicated view of a length-1 operand: used to state that a length-1
operand combined with operands of length L behaves as if replicated L times.
Operands of any other length are taken as they are. -/
def broadcastLen [Inhabited A] (L : Nat) (o : List A) : List A :=
  if o.length = 1 then List.replicate L (o.getD 0 default) else o

/-- C1: whenever apply takes the generic fallback path with operands whose
outer lengths all equal L or 1 (with L the common result length and L >= 1),
the run succeeds, the result has outer length L, element j of the result is
the single-element application of the operation to element j of each operand
after replicating length-1 operands L times, and in particular for operands
of equal outer length L element j of the result is the application to
element j of each operand. -/
theorem apply_fallback_broadcast_correct [Inhabited A] (mode : ApplyMode)
    (g : List A → A) (ops : List (List A)) (L : Nat)
    (hL : 1 ≤ L)
    (hlen : ∀ o ∈ ops, o.length = L ∨ o.length = 1)
    (hmax : maxv (ops.map List.length) = L) :
    ∃ r, (apply_fallback mode (fun xs => some (g xs)) ops).res = .ok r ∧
      r.length = L ∧
      (∀ j, j < L →
        r.getD j default = g (ops.map (fun o => (broadcastLen L o).getD j default))) ∧
      ((∀ o ∈ ops, o.length = L) → ∀ j, j < L →
        r.getD j default = g (ops.map (fun o => o.getD j default))) := by
  subst hmax
  have hno : ¬ ∃ a ∈ ops, ¬a.length = maxv (ops.map List.length) ∧ ¬a.length = 1 := by
    rintro ⟨a, ha, h1, h2⟩
    rcases hlen a ha with h | h
    · exact h1 h
    · exact h2 h
  have hloop := fallback_loop_total g ops (List.range (maxv (ops.map List.length)))
  refine ⟨(List.range (maxv (ops.map List.length))).map (fun j => g (fetchRow ops j)),
    ?_, ?_, ?_, ?_⟩
  · simp [apply_fallback, hloop, hno]
  · simp
  · intro j hj
    rw [getD_range_map _ _ _ hj]
    congr 1
    unfold fetchRow
    apply List.map_congr_left
    intro o ho
    by_cases h1 : o.length = 1
    · rw [if_pos h1]
      simp only [broadcastLen]
      rw [if_pos h1, getD_replicate_of_lt _ _ _ hj]
    · rw [if_neg h1]
      simp only [broadcastLen]
      rw [if_neg h1]
  · intro hall j hj
    rw [getD_range_map _ _ _ hj]
    congr 1
    unfold fetchRow
    apply List.map_congr_left
    intro o ho
    by_cases h1 : o.length = 1
    · have hj0 : j = 0 := by have := hall o ho; omega
      rw [if_pos h1, hj0]
    · rw [if_neg h1]

/-- C1 witness: concrete instance with operands [1,2,3] and the length-1
operand [10], both conclusions evaluated. -/
theorem apply_fallback_broadcast_correct_witness :
    ∃ r, (apply_fallback ApplyMode.Normal
        (fun xs => some (xs.foldl (· + ·) 0)) [[1, 2, 3], [10]]).res = .ok r ∧
      r.length = 3 ∧
      (∀ j, j < 3 →
        r.getD j default = (([[1, 2, 3], [10]].map
          (fun o => (broadcastLen 3 o).getD j default)).foldl (· + ·) 0)) ∧
      ((∀ o ∈ [[1, 2, 3], [10]], o.length = 3) → ∀ j, j < 3 →
        r.getD j default =
          (([[1, 2, 3], [10]].map (fun o => o.getD j default)).foldl (· + ·) 0)) :=
  apply_fallback_broadcast_correct ApplyMode.Normal
    (fun xs => xs.foldl (· + ·) 0) [[1, 2, 3], [10]] 3
    (by decide) (by decide) (by decide)

/-- C2: in InPlace mode on the generic fallback path, when the outer length
of the first operand equals the computed result length, the result reuses
the first operand storage: no fresh backing result object is allocated, no
move-replacement runs, and the returned result is the first operand itself.
Otherwise exactly one fresh result object is allocated and, on success, the
first operand is overwritten by move-replacement after the element loop and
the returned result is again the first operand; on failure of the loop no
move-replacement runs.  Either way the identity of the first operand is
preserved to callers. -/
theorem apply_inplace_storage_reuse [Inhabited A] (f : List A → Option A)
    (ops : List (List A))
    (hsz : ∀ o ∈ ops, o.length = maxv (ops.map List.length) ∨ o.length = 1) :
    (((ops.headD []).length = maxv (ops.map List.length)) →
        (apply_fallback ApplyMode.InPlace f ops).freshAllocs = 0 ∧
        (apply_fallback ApplyMode.InPlace f ops).moved = false ∧
        (∀ r, (apply_fallback ApplyMode.InPlace f ops).res = .ok r →
          (apply_fallback ApplyMode.InPlace f ops).resultIsFirst = true)) ∧
    (((ops.headD []).length ≠ maxv (ops.map List.length)) →
        (apply_fallback ApplyMode.InPlace f ops).freshAllocs = 1 ∧
        (∀ r, (apply_fallback ApplyMode.InPlace f ops).res = .ok r →
          (apply_fallback ApplyMode.InPlace f ops).moved = true ∧
          (apply_fallback ApplyMode.InPlace f ops).resultIsFirst = true) ∧
        (∀ e, (apply_fallback ApplyMode.InPlace f ops).res = .error e →
          (apply_fallback ApplyMode.InPlace f ops).moved = false)) := by
  have hno : ¬ ∃ a ∈ ops, ¬a.length = maxv (ops.map List.length) ∧ ¬a.length = 1 := by
    rintro ⟨a, ha, h1, h2⟩
    rcases hsz a ha with h | h
    · exact h1 h
    · exact h2 h
  constructor
  · intro hfirst
    have hfirst2 : (ops.head?.getD []).length = maxv (ops.map List.length) := by
      rw [← List.headD_eq_head?]
      exact hfirst
    cases hcase : fallback_loop f ops (List.range (maxv (ops.map List.length))) with
    | none => refine ⟨?_, ?_, ?_⟩ <;> simp [apply_fallback, hno, hcase, hfirst2]
    | some r => refine ⟨?_, ?_, ?_⟩ <;> simp [apply_fallback, hno, hcase, hfirst2]
  · intro hfirst
    have hfirst2 : ¬ (maxv (ops.map List.length) = (ops.head?.getD []).length) := by
      rw [← List.headD_eq_head?]
      exact fun h => hfirst h.symm
    cases hcase : fallback_loop f ops (List.range (maxv (ops.map List.length))) with
    | none => refine ⟨?_, ?_, ?_⟩ <;> simp [apply_fallback, hno, hcase, hfirst2]
    | some r => refine ⟨?_, ?_, ?_⟩ <;> simp [apply_fallback, hno, hcase, hfirst2]

/-- C2 witness: operands of lengths 2 and 1; the first operand length equals
the result length 2, hence the branch reusing the first operand storage. -/
theorem apply_inplace_storage_reuse_witness :
    (apply_fallback ApplyMode.InPlace
        (fun xs : List Nat => some (xs.foldl (· + ·) 0)) [[1, 2], [10]]).freshAllocs = 0 ∧
    (apply_fallback ApplyMode.InPlace
        (fun xs : List Nat => some (xs.foldl (· + ·) 0)) [[1, 2], [10]]).moved = false ∧
    (∀ r, (apply_fallback ApplyMode.InPlace
        (fun xs : List Nat => some (xs.foldl (· + ·) 0)) [[1, 2], [10]]).res = .ok r →
      (apply_fallback ApplyMode.InPlace
        (fun xs : List Nat => some (xs.foldl (· + ·) 0)) [[1, 2], [10]]).resultIsFirst = true) :=
  (apply_inplace_storage_reuse (fun xs : List Nat => some (xs.foldl (· + ·) 0))
    [[1, 2], [10]] (by decide)).1 (by decide)

/-- C5: on the generic fallback path, operands whose runtime outer lengths
are not all pairwise equal or exactly 1 make the operation fail with the
incompatible-size diagnostic; the message names every observed operand
length, and no result is returned. -/
theorem apply_fallback_size_error [Inhabited A] (mode : ApplyMode)
    (f : List A → Option A) (ops : List (List A))
    (hbad : ∃ o1 ∈ ops, ∃ o2 ∈ ops,
      o1.length ≠ o2.length ∧ o1.length ≠ 1 ∧ o2.length ≠ 1) :
    (apply_fallback mode f ops).res =
      .error (incompatible_size_msg (ops.map List.length)) ∧
    ∀ o ∈ ops, ∃ p q,
      incompatible_size_msg (ops.map List.length) = p ++ toString o.length ++ q := by
  obtain ⟨o1, h1, o2, h2, hne, hn1, hn2⟩ := hbad
  have hex : ∃ a ∈ ops, ¬a.length = maxv (ops.map List.length) ∧ ¬a.length = 1 := by
    by_cases hc : o1.length = maxv (ops.map List.length)
    · refine ⟨o2, h2, ?_, hn2⟩
      rw [← hc]
      exact fun h => hne h.symm
    · exact ⟨o1, h1, hc, hn1⟩
  constructor
  · simp [apply_fallback, hex]
  · intro o ho
    exact incompatible_size_msg_contains _ _ (List.mem_map_of_mem _ ho)

/-- C5 witness: operand lengths 2 and 3 with neither equal to 1; the message
mentions both 2 and 3. -/
theorem apply_fallback_size_error_witness :
    (apply_fallback ApplyMode.Normal
        (fun xs : List Nat => some (xs.foldl (· + ·) 0))
        [[1, 2], [10, 20, 30]]).res =
      .error (incompatible_size_msg [2, 3]) ∧
    ∀ o ∈ [[1, 2], [10, 20, 30]], ∃ p q,
      incompatible_size_msg [2, 3] = p ++ toString o.length ++ q :=
  apply_fallback_size_error ApplyMode.Normal
    (fun xs : List Nat => some (xs.foldl (· + ·) 0))
    [[1, 2], [10, 20, 30]] (by decide)

/-! ### Dispatch prologue of apply(): kernel table and comparison guard -/

/-- Kernel table entry for one operation of one flavor (apply.cpp
lines 138-141, 172): the sentinel DRJIT_OP_NOT_IMPLEMENTED, the sentinel
DRJIT_OP_DEFAULT requesting the generic fallback, or a native vectorized
kernel (an external function, modelled as returning the result contents). -/
inductive OpImpl (A : Type) where
  | notImplemented
  | defaultImpl
  | native (k : List (List A) → List A)

/-- Python rich-comparison slot constants Py_LT, Py_LE, Py_EQ, Py_NE,
Py_GT, Py_GE used at apply.cpp lines 148-149. -/
inductive CmpSlot where
  | LT
  | LE
  | EQ
  | NE
  | GT
  | GE
deriving DecidableEq, Repr

/-- Flavor capability flags consumed by apply() (ArraySupplement from
base.h, accessed at apply.cpp lines 134-138 and 147-150): tensor flag,
structured-flavor flags, whether the element type is VarType::Pointer, and
the per-operation kernel table. -/
structure ArraySupplement (A : Type) where
  is_tensor : Bool := false
  is_matrix : Bool := false
  is_complex : Bool := false
  is_quaternion : Bool := false
  is_pointer : Bool := false
  table : Nat → OpImpl A

/-- Error message of the RichCompare guard, apply.cpp lines 151-153. -/
def cmp_error_msg : String :=
  "Inequality comparisons are only permitted on ordinary " ++
  "arithmetic arrays. They are suppressed for complex " ++
  "arrays, quaternions, matrices, and arrays of pointers."

/-- Raise condition of the RichCompare guard, apply.cpp lines 148-150:
((is_matrix or is_complex or is_quaternion) and slot not in (Py_EQ, Py_NE))
or the element type is VarType::Pointer. -/
def richcompare_blocked (s : ArraySupplement A) (slot : CmpSlot) : Bool :=
  ((s.is_matrix || s.is_complex || s.is_quaternion) &&
     (decide (slot ≠ CmpSlot.EQ) && decide (slot ≠ CmpSlot.NE))) || s.is_pointer

/-- Outcome of the apply() entry: delegation to apply_tensor (line 136),
the recoverable nb::not_implemented() sentinel (lines 140-141), a raise of
the RichCompare guard before any result allocation (lines 147-153), or a
completed run of the operation. -/
inductive ApplyOutcome (A : Type) where
  | tensorDelegate
  | notImplemented
  | raised (msg : String)
  | completed (run : FallbackRun A)

/-- Entry of apply() for one flavor (apply.cpp lines 127-275, after
promotion): tensor flavors delegate to apply_tensor; a kernel-table entry
DRJIT_OP_NOT_IMPLEMENTED returns the recoverable not-implemented sentinel
before anything is allocated; in RichCompare mode the comparison guard runs
next; a native kernel then allocates one result and fills it, and the
DRJIT_OP_DEFAULT sentinel takes the generic fallback path.  The second
component counts allocated backing result objects. -/
def apply_entry [Inhabited A] (s : ArraySupplement A) (op : Nat)
    (mode : ApplyMode) (slot : CmpSlot) (f : List A → Option A)
    (ops : List (List A)) : ApplyOutcome A × Nat :=
  if s.is_tensor then (ApplyOutcome.tensorDelegate, 0)
  else
    match s.table op with
    | OpImpl.notImplemented => (ApplyOutcome.notImplemented, 0)
    | impl =>
      if mode = ApplyMode.RichCompare ∧ richcompare_blocked s slot = true then
        (ApplyOutcome.raised cmp_error_msg, 0)
      else
        match impl with
        | OpImpl.native k =>
          (ApplyOutcome.completed
            { res := .ok (k ops), resultIsFirst := decide (mode = ApplyMode.InPlace),
              freshAllocs := 1, moved := decide (mode = ApplyMode.InPlace) }, 1)
        | _ =>
          let run := apply_fallback mode f ops
          (ApplyOutcome.completed run, run.freshAllocs)

/-- Helper: with a total nested operation and broadcast-compatible operand
lengths, the fallback path succeeds and returns the loop contents. -/
theorem apply_fallback_res_total [Inhabited A] (mode : ApplyMode)
    (g : List A → A) (ops : List (List A))
    (hlen : ∀ o ∈ ops, o.length = maxv (ops.map List.length) ∨ o.length = 1) :
    (apply_fallback mode (fun xs => some (g xs)) ops).res =
      .ok ((List.range (maxv (ops.map List.length))).map
        (fun j => g (fetchRow ops j))) := by
  have hno : ¬ ∃ a ∈ ops, ¬a.length = maxv (ops.map List.length) ∧ ¬a.length = 1 := by
    rintro ⟨a, ha, h1, h2⟩
    rcases hlen a ha with h | h
    · exact h1 h
    · exact h2 h
  have hloop := fallback_loop_total g ops (List.range (maxv (ops.map List.length)))
  simp [apply_fallback, hno, hloop]

/-- C9: on a non-tensor flavor whose kernel table marks the operation as
not implemented, apply returns the recoverable not-implemented sentinel to
the caller instead of raising an error, and no result array is allocated. -/
theorem apply_not_implemented_sentinel [Inhabited A] (s : ArraySupplement A)
    (op : Nat) (mode : ApplyMode) (slot : CmpSlot) (f : List A → Option A)
    (ops : List (List A))
    (ht : s.is_tensor = false) (hop : s.table op = OpImpl.notImplemented) :
    apply_entry s op mode slot f ops = (ApplyOutcome.notImplemented, 0) := by
  simp [apply_entry, ht, hop]

/-- C9 witness: concrete non-tensor flavor whose table marks operation 0
unimplemented. -/
theorem apply_not_implemented_sentinel_witness :
    apply_entry ({ table := fun _ => OpImpl.notImplemented } : ArraySupplement Nat)
      0 ApplyMode.Normal CmpSlot.EQ (fun xs => some (xs.foldl (· + ·) 0))
      [[1, 2], [3, 4]] = (ApplyOutcome.notImplemented, 0) :=
  apply_not_implemented_sentinel _ 0 ApplyMode.Normal CmpSlot.EQ _ _ rfl rfl

/-- C6 counterexample: on a pointer-valued flavor the guard at apply.cpp
lines 147-153 raises for EVERY rich comparison, including the equality
comparison Py_EQ, because the pointer condition is a separate disjunct not
restricted to ordering slots.  The claim states that an equality or
inequality comparison on a pointer-valued flavor succeeds; here a concrete
equality comparison on a pointer-valued flavor is refused. -/
theorem richcompare_pointer_eq_counterexample :
    apply_entry
      ({ is_pointer := true, table := fun _ => OpImpl.defaultImpl } : ArraySupplement Nat)
      0 ApplyMode.RichCompare CmpSlot.EQ
      (fun xs => some (xs.foldl (· + ·) 0)) [[1, 2], [3, 4]] =
    (ApplyOutcome.raised cmp_error_msg, 0) := rfl

/-- C6 (amended): in RichCompare mode on a flavor using the generic table
entry, every ordering comparison (Py_LT, Py_LE, Py_GT, Py_GE) on a
matrix-like, complex, quaternion, or pointer-valued flavor raises the
comparison error; an equality or inequality comparison (Py_EQ, Py_NE) on a
matrix-like, complex, or quaternion flavor that is not pointer-valued
proceeds to the generic fallback and succeeds on broadcast-compatible
operands; on a pointer-valued flavor every rich comparison, including
equality and inequality, raises the error. -/
theorem richcompare_restriction [Inhabited A] (s : ArraySupplement A)
    (op : Nat) (f : List A → Option A) (ops : List (List A))
    (ht : s.is_tensor = false) (hop : s.table op = OpImpl.defaultImpl) :
    ((s.is_matrix || s.is_complex || s.is_quaternion || s.is_pointer) = true →
      ∀ slot ∈ [CmpSlot.LT, CmpSlot.LE, CmpSlot.GT, CmpSlot.GE],
        apply_entry s op ApplyMode.RichCompare slot f ops =
          (ApplyOutcome.raised cmp_error_msg, 0)) ∧
    ((s.is_matrix || s.is_complex || s.is_quaternion) = true →
      s.is_pointer = false →
      ∀ slot ∈ [CmpSlot.EQ, CmpSlot.NE],
        apply_entry s op ApplyMode.RichCompare slot f ops =
          (ApplyOutcome.completed (apply_fallback ApplyMode.RichCompare f ops),
            (apply_fallback ApplyMode.RichCompare f ops).freshAllocs)) ∧
    (s.is_pointer = true → ∀ slot,
      apply_entry s op ApplyMode.RichCompare slot f ops =
        (ApplyOutcome.raised cmp_error_msg, 0)) ∧
    (∀ (g : List A → A),
      (∀ o ∈ ops, o.length = maxv (ops.map List.length) ∨ o.length = 1) →
      (s.is_matrix || s.is_complex || s.is_quaternion) = true →
      s.is_pointer = false →
      ∀ slot ∈ [CmpSlot.EQ, CmpSlot.NE],
      ∃ run, apply_entry s op ApplyMode.RichCompare slot
          (fun xs => some (g xs)) ops = (ApplyOutcome.completed run, run.freshAllocs) ∧
        run.res = .ok ((List.range (maxv (ops.map List.length))).map
          (fun j => g (fetchRow ops j)))) := by
  refine ⟨?_, ?_, ?_, ?_⟩
  · intro hs slot hslot
    have hblock : richcompare_blocked s slot = true := by
      fin_cases hslot <;> simp_all [richcompare_blocked]
    simp [apply_entry, ht, hop, hblock]
  · intro hs hp slot hslot
    have hblock : richcompare_blocked s slot = false := by
      fin_cases hslot <;> simp_all [richcompare_blocked]
    simp [apply_entry, ht, hop, hblock]
  · intro hp slot
    have hblock : richcompare_blocked s slot = true := by
      simp [richcompare_blocked, hp]
    simp [apply_entry, ht, hop, hblock]
  · intro g hlen hs hp slot hslot
    have hblock : richcompare_blocked s slot = false := by
      fin_cases hslot <;> simp_all [richcompare_blocked]
    refine ⟨apply_fallback ApplyMode.RichCompare (fun xs => some (g xs)) ops, ?_, ?_⟩
    · simp [apply_entry, ht, hop, hblock]
    · exact apply_fallback_res_total ApplyMode.RichCompare g ops hlen

/-- C6 witness: matrix flavor; the ordering comparison Py_LT raises and the
equality comparison Py_EQ reaches the generic fallback. -/
theorem richcompare_restriction_witness :
    apply_entry
      ({ is_matrix := true, table := fun _ => OpImpl.defaultImpl } : ArraySupplement Nat)
      0 ApplyMode.RichCompare CmpSlot.LT
      (fun xs => some (xs.foldl (· + ·) 0)) [[1, 2], [3, 4]] =
      (ApplyOutcome.raised cmp_error_msg, 0) ∧
    apply_entry
      ({ is_matrix := true, table := fun _ => OpImpl.defaultImpl } : ArraySupplement Nat)
      0 ApplyMode.RichCompare CmpSlot.EQ
      (fun xs => some (xs.foldl (· + ·) 0)) [[1, 2], [3, 4]] =
      (ApplyOutcome.completed (apply_fallback ApplyMode.RichCompare
          (fun xs => some (xs.foldl (· + ·) 0)) [[1, 2], [3, 4]]),
        (apply_fallback ApplyMode.RichCompare
          (fun xs => some (xs.foldl (· + ·) 0)) [[1, 2], [3, 4]]).freshAllocs) :=
  ⟨(richcompare_restriction
      ({ is_matrix := true, table := fun _ => OpImpl.defaultImpl } : ArraySupplement Nat)
      0 (fun xs => some (xs.foldl (· + ·) 0)) [[1, 2], [3, 4]] rfl rfl).1
      rfl CmpSlot.LT (by simp),
   (richcompare_restriction
      ({ is_matrix := true, table := fun _ => OpImpl.defaultImpl } : ArraySupplement Nat)
      0 (fun xs => some (xs.foldl (· + ·) 0)) [[1, 2], [3, 4]] rfl rfl).2.1
      rfl rfl CmpSlot.EQ (by simp)⟩

/-! ### Tensor path: shape reconciliation and gather-based broadcast -/

/-- Product of the extents of a shape; the flattened size computed at
apply.cpp lines 308-310. -/
def prodl : List Nat → Nat
  | [] => 1
  | d :: ds => d * prodl ds

/-- Row-major flattening of a multi-index over a shape (used only in
statements relating flat indices to per-dimension coordinates). -/
def ravel : List Nat → List Nat → Nat
  | _ :: ds, k :: ks => k * prodl ds + ravel ds ks
  | _, _ => 0

/-- Index transformation of tensor_broadcast (apply.cpp lines 318-331)
applied to one entry of the arange index array: iterating over the
dimensions, size starts at the flattened destination size and becomes
size / shape_dst[i] at each step; when shape_src[i] == 1 and
shape_dst[i] != 1 the index is remapped to
(index mod size_next) + (index div size) * size_next. -/
def bcast_step : List Nat → List Nat → Nat → Nat → Nat
  | s :: src, d :: dst, size, idx =>
    let sizeNext := size / d
    bcast_step src dst sizeNext
      (if s = 1 ∧ d ≠ 1 then idx % sizeNext + idx / size * sizeNext else idx)
  | _, _, _, idx => idx

/-- Gather index of tensor_broadcast for one flattened destination
position, starting from size = prodl shape_dst as at apply.cpp
lines 308-319. -/
def bcast_index (src dst : List Nat) (idx : Nat) : Nat :=
  bcast_step src dst (prodl dst) idx

/-- Modelled from the spec: gather (memop.h, outside src/) reads element
index[k] of the source array for every destination position k, and arange
(init.h, outside src/) produces the index sequence 0, 1, ..., size-1
transformed elementwise by the loop of tensor_broadcast. -/
def gather [Inhabited A] (array : List A) (index : List Nat) : List A :=
  index.map (fun k => array.getD k default)

/-- tensor_broadcast from apply.cpp lines 298-335: a no-op when the source
rank is 0 or the source shape already equals the destination shape
(memcmp at line 302); otherwise the flat array is gathered through the
transformed arange index over the flattened destination shape. -/
def tensor_broadcast [Inhabited A] (flat : List A)
    (shape_src shape_dst : List Nat) : List A :=
  if shape_src.length = 0 ∨ shape_src = shape_dst then flat
  else gather flat
    ((List.range (prodl shape_dst)).map (fun k => bcast_index shape_src shape_dst k))

/-- Extent of one operand at dimension i as read by apply_tensor line 381:
shape_i[k] = ndims[k] ? shapes[k][i] : 1, so a rank-0 operand contributes
extent 1 in every dimension. -/
def extAt (s : List Nat) (i : Nat) : Nat :=
  if s.length = 0 then 1 else s.getD i 0

/-- Per-dimension incompatibility test of apply_tensor lines 381-387:
some operand has an extent that differs from the per-dimension maximum,
is not 1, and belongs to an operand of non-zero rank. -/
def badDim (shapes : List (List Nat)) (i : Nat) : Bool :=
  shapes.any (fun s =>
    extAt s i ≠ maxv (shapes.map (fun t => extAt t i)) ∧ extAt s i ≠ 1 ∧ s.length ≠ 0)

/-- Dimension loop of apply_tensor lines 379-389 over the listed dimension
indices: the common extent of dimension i is the maximum of the per-operand
extents; the first incompatible dimension aborts (the break at line 385)
and yields no shape. -/
def build_shape (shapes : List (List Nat)) : List Nat → Option (List Nat)
  | [] => some []
  | i :: rest =>
    if badDim shapes i then none
    else (build_shape shapes rest).map
      (fun sh => maxv (shapes.map (fun t => extAt t i)) :: sh)

/-- Modelled from the spec: cast_shape (shape.h, outside src/) converts a
shape vector to a Python tuple whose rendering names every extent;
rendered here as a parenthesized comma-separated list. -/
def cast_shape_str (s : List Nat) : String :=
  "(" ++ String.intercalate ", " (s.map toString) ++ ")"

/-- Aggregated diagnostic of apply_tensor lines 391-399, naming every
operand shape in a single message (the two-operand and three-operand
format strings at lines 394-396). -/
def shape_error_msg : List (List Nat) → String
  | [a, b] =>
    "Operands have incompatible shapes: " ++ cast_shape_str a ++ " and " ++
      cast_shape_str b ++ "."
  | [a, b, c] =>
    "Operands have incompatible shapes: " ++ cast_shape_str a ++ ", " ++
      cast_shape_str b ++ ", and " ++ cast_shape_str c ++ "."
  | _ => "Operands have incompatible shapes."

/-- Shape reconciliation of apply_tensor (apply.cpp lines 364-399): the
common rank ndim is the maximum operand rank; the operation is
incompatible when some operand rank differs from ndim and is non-zero
(lines 372-375, only checked for more than one operand); then the
dimension loop computes the per-dimension maximum extents; any
incompatibility is reported through the single aggregated diagnostic. -/
def tensor_common_shape (shapes : List (List Nat)) : Except String (List Nat) :=
  let ndims := shapes.map List.length
  let ndim := maxv ndims
  match (if shapes.length ≤ 1 ∨ ∀ nd ∈ ndims, ndim = nd ∨ nd = 0 then
      build_shape shapes (List.range ndim)
    else none) with
  | some sh => .ok sh
  | none => .error (shape_error_msg shapes)

/-- Tensor value: explicit shape vector over a flat backing array. -/
structure TensorVal (A : Type) where
  shape : List Nat
  flat : List A
deriving Repr

/-- Outcome of one apply_tensor run: the result tensor or the propagated
error, and whether nb::inst_replace_move replaced the first operand
(apply.cpp lines 420-423). -/
structure TensorRun (A : Type) where
  res : Except String (TensorVal A)
  moved : Bool := false
deriving Repr

/-- NestedMode of apply_tensor line 406: InPlace is demoted to Normal for
the nested flat apply; other modes pass through. -/
def nested_mode : ApplyMode → ApplyMode
  | ApplyMode.InPlace => ApplyMode.Normal
  | m => m

/-- Success test for an Except value. -/
def except_ok : Except E B → Bool
  | .ok _ => true
  | .error _ => false

/-- apply_tensor for two operands (apply.cpp lines 338-445), after
promotion with o[0] still the original first argument (so move = true in
InPlace mode, line 356): reconcile the shapes (lines 364-399), broadcast
both underlying flat arrays to the common shape (line 403), run the nested
flat apply in the demoted mode (lines 406-409; modelled by the generic
fallback, which realizes the elementwise contract of the flat operation),
fail if the nested operation failed (lines 411-412), otherwise wrap the
flat result with the common shape (line 418) and move-replace the first
operand only then (lines 420-423). -/
def apply_tensor [Inhabited A] (mode : ApplyMode) (f : List A → Option A)
    (t0 t1 : TensorVal A) : TensorRun A :=
  match tensor_common_shape [t0.shape, t1.shape] with
  | .error m => { res := .error m }
  | .ok shape =>
    let a0 := tensor_broadcast t0.flat t0.shape shape
    let a1 := tensor_broadcast t1.flat t1.shape shape
    match (apply_fallback (nested_mode mode) f [a0, a1]).res with
    | .error _ => { res := .error "Operation on underlying array failed." }
    | .ok r =>
      { res := .ok ⟨shape, r⟩, moved := decide (mode = ApplyMode.InPlace) }

example : bcast_index [3, 1] [3, 4] 7 = 1 := rfl

example : bcast_index [1, 4] [3, 4] 7 = 3 := rfl

example : tensor_common_shape [[3, 1], [1, 4]] = .ok [3, 4] := rfl

example : tensor_common_shape [[0], []] = .error (shape_error_msg [[0], []]) := rfl

example :
    (apply_tensor ApplyMode.Normal
      (fun xs => match xs with | [a, b] => some (a + b) | _ => none)
      ⟨[3, 1], [100, 200, 300]⟩ ⟨[1, 4], [1, 2, 3, 4]⟩).res =
    .ok ⟨[3, 4], [101, 102, 103, 104, 201, 202, 203, 204, 301, 302, 303, 304]⟩ := rfl

/-! ### Arithmetic of the broadcast gather index -/

theorem ravel_lt : ∀ (dst ks : List Nat), List.Forall₂ (· < ·) ks dst →
    ravel dst ks < prodl dst := by
  intro dst ks h
  induction h with
  | nil => simp [ravel, prodl]
  | cons hkd htail ih =>
    rename_i k d ks2 dst2
    have hk1 : k + 1 ≤ d := hkd
    calc ravel (d :: dst2) (k :: ks2) = k * prodl dst2 + ravel dst2 ks2 := rfl
      _ < k * prodl dst2 + prodl dst2 := by omega
      _ = (k + 1) * prodl dst2 := by ring
      _ ≤ d * prodl dst2 := Nat.mul_le_mul_right _ hk1
      _ = prodl (d :: dst2) := rfl

/-- Invariant of the index loop of tensor_broadcast: running the remaining
dimensions on an index of the form H * prodl dst + ravel dst ks produces
H * prodl src + the flat source position of the multi-index whose
coordinate is forced to 0 wherever the source extent is 1 and passed
through elsewhere. -/
theorem bcast_step_ravel :
    ∀ (src dst ks : List Nat),
      List.Forall₂ (fun s d => s = 1 ∨ s = d) src dst →
      List.Forall₂ (· < ·) ks dst →
      ∀ H, bcast_step src dst (prodl dst) (H * prodl dst + ravel dst ks) =
        H * prodl src +
          ravel src (List.zipWith (fun s k => if s = 1 then 0 else k) src ks) := by
  intro src dst ks hcompat
  induction hcompat generalizing ks with
  | nil =>
    intro hks H
    cases hks
    simp [bcast_step, ravel, prodl]
  | cons hsd htail ih =>
    rename_i s d src2 dst2
    intro hks H
    cases hks with
    | cons hkd hks2 =>
      rename_i k ks2
      have hr : ravel dst2 ks2 < prodl dst2 := ravel_lt dst2 ks2 hks2
      have hd : 0 < d := Nat.lt_of_le_of_lt (Nat.zero_le _) hkd
      have hdiv : d * prodl dst2 / d = prodl dst2 := Nat.mul_div_cancel_left _ hd
      have hidx : H * prodl (d :: dst2) + ravel (d :: dst2) (k :: ks2) =
          H * (d * prodl dst2) + (k * prodl dst2 + ravel dst2 ks2) := by
        simp [prodl, ravel]
      rw [hidx]
      show bcast_step (s :: src2) (d :: dst2) (prodl (d :: dst2)) _ = _
      have hsize : prodl (d :: dst2) = d * prodl dst2 := rfl
      simp only [bcast_step, hsize, hdiv]
      by_cases hcase : s = 1 ∧ d ≠ 1
      · rw [if_pos hcase]
        have hmod : (H * (d * prodl dst2) + (k * prodl dst2 + ravel dst2 ks2)) %
            prodl dst2 = ravel dst2 ks2 := by
          have he : H * (d * prodl dst2) + (k * prodl dst2 + ravel dst2 ks2) =
              ravel dst2 ks2 + (H * d + k) * prodl dst2 := by ring
          rw [he, Nat.add_mul_mod_self_right, Nat.mod_eq_of_lt hr]
        have hquot : (H * (d * prodl dst2) + (k * prodl dst2 + ravel dst2 ks2)) /
            (d * prodl dst2) = H := by
          have hlt : k * prodl dst2 + ravel dst2 ks2 < d * prodl dst2 := by
            calc k * prodl dst2 + ravel dst2 ks2 < k * prodl dst2 + prodl dst2 := by omega
              _ = (k + 1) * prodl dst2 := by ring
              _ ≤ d * prodl dst2 := Nat.mul_le_mul_right _ hkd
          have he : H * (d * prodl dst2) + (k * prodl dst2 + ravel dst2 ks2) =
              d * prodl dst2 * H + (k * prodl dst2 + ravel dst2 ks2) := by ring
          have hppos : 0 < prodl dst2 := by omega
          rw [he, Nat.mul_add_div (Nat.mul_pos hd hppos), Nat.div_eq_of_lt hlt]
          omega
        rw [hmod, hquot, Nat.add_comm (ravel dst2 ks2) (H * prodl dst2),
          ih ks2 hks2 H]
        rcases hcase with ⟨hs1, _⟩
        subst hs1
        simp [prodl, ravel]
      · rw [if_neg hcase]
        have he : H * (d * prodl dst2) + (k * prodl dst2 + ravel dst2 ks2) =
            (H * d + k) * prodl dst2 + ravel dst2 ks2 := by ring
        rw [he, ih ks2 hks2 (H * d + k)]
        rcases hsd with hs1 | hsd2
        · have hd1 : d = 1 := by
            by_contra hd1
            exact hcase ⟨hs1, hd1⟩
          have hk0 : k = 0 := by omega
          subst hs1
          subst hd1
          subst hk0
          simp [prodl, ravel]
        · subst hsd2
          by_cases hs1 : s = 1
          · have hk0 : k = 0 := by omega
            subst hs1
            subst hk0
            simp [prodl, ravel]
          · simp only [List.zipWith_cons_cons, if_neg hs1, prodl, ravel]
            ring

/-- The gather index over the flattened common shape maps the flat
destination position of multi-index ks to the flat source position of ks
with its coordinate forced to 0 in every dimension of source extent 1 and
passed through in dimensions of matching extent. -/
theorem bcast_index_ravel (src dst ks : List Nat)
    (hcompat : List.Forall₂ (fun s d => s = 1 ∨ s = d) src dst)
    (hks : List.Forall₂ (· < ·) ks dst) :
    bcast_index src dst (ravel dst ks) =
      ravel src (List.zipWith (fun s k => if s = 1 then 0 else k) src ks) := by
  have h := bcast_step_ravel src dst ks hcompat hks 0
  simpa [bcast_index] using h

/-- C10: apply_tensor in InPlace mode demotes the nested flat apply to
Normal mode (apply.cpp line 406), a Normal-mode fallback run never takes
the first operand as its result object and never move-replaces it (so the
backing flat array of the first operand is not mutated while the result is
computed), and apply_tensor in InPlace mode performs the single
move-replacement of the first operand exactly when the operation succeeds,
after the complete result tensor is constructed, never on failure. -/
theorem apply_tensor_inplace_demotion [Inhabited A] :
    nested_mode ApplyMode.InPlace = ApplyMode.Normal ∧
    (∀ (f : List A → Option A) (ops : List (List A)),
      (apply_fallback ApplyMode.Normal f ops).resultIsFirst = false ∧
      (apply_fallback ApplyMode.Normal f ops).moved = false) ∧
    (∀ (f : List A → Option A) (t0 t1 : TensorVal A),
      (apply_tensor ApplyMode.InPlace f t0 t1).moved =
        except_ok (apply_tensor ApplyMode.InPlace f t0 t1).res) := by
  refine ⟨rfl, ?_, ?_⟩
  · intro f ops
    by_cases hex : ∃ a ∈ ops, ¬a.length = maxv (ops.map List.length) ∧ ¬a.length = 1
    · constructor <;> simp [apply_fallback, hex]
    · cases hcase : fallback_loop f ops (List.range (maxv (ops.map List.length))) with
      | none => constructor <;> simp [apply_fallback, hex, hcase]
      | some r => constructor <;> simp [apply_fallback, hex, hcase]
  · intro f t0 t1
    cases hsh : tensor_common_shape [t0.shape, t1.shape] with
    | error m => simp [apply_tensor, hsh, except_ok]
    | ok sh =>
      cases hres : (apply_fallback (nested_mode ApplyMode.InPlace) f
          [tensor_broadcast t0.flat t0.shape sh,
           tensor_broadcast t1.flat t1.shape sh]).res with
      | error m => simp [apply_tensor, hsh, hres, except_ok]
      | ok r => simp [apply_tensor, hsh, hres, except_ok]

theorem fallback_loop_of_forall [Inhabited A] (f : List A → Option A)
    (g : Nat → A) (ops : List (List A)) :
    ∀ js : List Nat, (∀ j ∈ js, f (fetchRow ops j) = some (g j)) →
      fallback_loop f ops js = some (js.map g)
  | [] => fun _ => rfl
  | j :: js => fun h => by
    have hj := h j (List.mem_cons_self j js)
    have hrest := fallback_loop_of_forall f g ops js
      (fun i hi => h i (List.mem_cons_of_mem _ hi))
    simp [fallback_loop, hj, hrest]

set_option maxHeartbeats 1600000 in
/-- C3: tensors of shapes (3,1) and (1,4) reconcile to the common shape
(3,4) and element (i,j) of the result equals the operation applied to
element (i,0) of the first operand and element (0,j) of the second; in
general the gather index built over the flattened common shape maps the
position of multi-index ks to the source position with the coordinate
wrapped to 0 along every dimension of source extent 1 and passed through
along dimensions of matching extent. -/
theorem tensor_broadcast_gather_correct [Inhabited A] (g : A → A → A)
    (t0f t1f : List A) (h0 : t0f.length = 3) (h1 : t1f.length = 4)
    (i j : Nat) (hi : i < 3) (hj : j < 4) :
    tensor_common_shape [[3, 1], [1, 4]] = .ok [3, 4] ∧
    (∃ flat, (apply_tensor ApplyMode.Normal
        (fun xs => match xs with | [a, b] => some (g a b) | _ => none)
        ⟨[3, 1], t0f⟩ ⟨[1, 4], t1f⟩).res = .ok ⟨[3, 4], flat⟩ ∧
      flat.getD (i * 4 + j) default =
        g (t0f.getD i default) (t1f.getD j default)) ∧
    (∀ src dst ks : List Nat,
      List.Forall₂ (fun s d => s = 1 ∨ s = d) src dst →
      List.Forall₂ (· < ·) ks dst →
      bcast_index src dst (ravel dst ks) =
        ravel src (List.zipWith (fun s k => if s = 1 then 0 else k) src ks)) := by
  refine ⟨rfl, ?_, fun src dst ks hc hk => bcast_index_ravel src dst ks hc hk⟩
  have htb0 : tensor_broadcast t0f [3, 1] [3, 4] =
      (List.range 12).map (fun k => t0f.getD (bcast_index [3, 1] [3, 4] k) default) := by
    rw [tensor_broadcast.eq_def, if_neg (by decide)]
    simp only [gather, List.map_map]
    rfl
  have htb1 : tensor_broadcast t1f [1, 4] [3, 4] =
      (List.range 12).map (fun k => t1f.getD (bcast_index [1, 4] [3, 4] k) default) := by
    rw [tensor_broadcast.eq_def, if_neg (by decide)]
    simp only [gather, List.map_map]
    rfl
  have hrow : ∀ k ∈ List.range 12,
      (fun xs : List A => match xs with | [a, b] => some (g a b) | _ => none)
        (fetchRow [(List.range 12).map
            (fun k => t0f.getD (bcast_index [3, 1] [3, 4] k) default),
          (List.range 12).map
            (fun k => t1f.getD (bcast_index [1, 4] [3, 4] k) default)] k) =
      some (g (t0f.getD (bcast_index [3, 1] [3, 4] k) default)
        (t1f.getD (bcast_index [1, 4] [3, 4] k) default)) := by
    intro k hk
    have hk12 : k < 12 := List.mem_range.mp hk
    have hfr : fetchRow [(List.range 12).map
          (fun k => t0f.getD (bcast_index [3, 1] [3, 4] k) default),
        (List.range 12).map
          (fun k => t1f.getD (bcast_index [1, 4] [3, 4] k) default)] k =
        [t0f.getD (bcast_index [3, 1] [3, 4] k) default,
         t1f.getD (bcast_index [1, 4] [3, 4] k) default] := by
      simp only [fetchRow, List.map_cons, List.map_nil, List.length_map,
        List.length_range]
      rw [if_neg (by decide), getD_range_map _ 12 k hk12,
        getD_range_map _ 12 k hk12]
    rw [hfr]
  have hloop := fallback_loop_of_forall
    (fun xs : List A => match xs with | [a, b] => some (g a b) | _ => none)
    (fun k => g (t0f.getD (bcast_index [3, 1] [3, 4] k) default)
      (t1f.getD (bcast_index [1, 4] [3, 4] k) default))
    [(List.range 12).map (fun k => t0f.getD (bcast_index [3, 1] [3, 4] k) default),
     (List.range 12).map (fun k => t1f.getD (bcast_index [1, 4] [3, 4] k) default)]
    (List.range 12) hrow
  have h12 : maxv [12, 12] = 12 := by decide
  have hres : (apply_fallback ApplyMode.Normal
      (fun xs : List A => match xs with | [a, b] => some (g a b) | _ => none)
      [(List.range 12).map (fun k => t0f.getD (bcast_index [3, 1] [3, 4] k) default),
       (List.range 12).map (fun k => t1f.getD (bcast_index [1, 4] [3, 4] k) default)]).res =
      .ok ((List.range 12).map (fun k =>
        g (t0f.getD (bcast_index [3, 1] [3, 4] k) default)
          (t1f.getD (bcast_index [1, 4] [3, 4] k) default))) := by
    simp only [apply_fallback, List.map_cons, List.map_nil, List.length_map,
      List.length_range, h12]
    rw [if_neg (by decide), hloop]
  have happ : (apply_tensor ApplyMode.Normal
      (fun xs : List A => match xs with | [a, b] => some (g a b) | _ => none)
      ⟨[3, 1], t0f⟩ ⟨[1, 4], t1f⟩).res =
      .ok ⟨[3, 4], (List.range 12).map (fun k =>
        g (t0f.getD (bcast_index [3, 1] [3, 4] k) default)
          (t1f.getD (bcast_index [1, 4] [3, 4] k) default))⟩ := by
    have hstep : apply_tensor ApplyMode.Normal
        (fun xs : List A => match xs with | [a, b] => some (g a b) | _ => none)
        (⟨[3, 1], t0f⟩ : TensorVal A) (⟨[1, 4], t1f⟩ : TensorVal A) =
        (match (apply_fallback ApplyMode.Normal
            (fun xs : List A => match xs with | [a, b] => some (g a b) | _ => none)
            [tensor_broadcast t0f [3, 1] [3, 4],
             tensor_broadcast t1f [1, 4] [3, 4]]).res with
          | .error _ => { res := .error "Operation on underlying array failed." }
          | .ok r => { res := .ok ⟨[3, 4], r⟩,
                       moved := decide (ApplyMode.Normal = ApplyMode.InPlace) }) := rfl
    rw [hstep, htb0, htb1, hres]
  refine ⟨(List.range 12).map (fun k =>
      g (t0f.getD (bcast_index [3, 1] [3, 4] k) default)
        (t1f.getD (bcast_index [1, 4] [3, 4] k) default)), happ, ?_⟩
  have hcompat0 : List.Forall₂ (fun s d => s = 1 ∨ s = d) [3, 1] [3, 4] :=
    List.Forall₂.cons (Or.inr rfl) (List.Forall₂.cons (Or.inl rfl) List.Forall₂.nil)
  have hcompat1 : List.Forall₂ (fun s d => s = 1 ∨ s = d) [1, 4] [3, 4] :=
    List.Forall₂.cons (Or.inl rfl) (List.Forall₂.cons (Or.inr rfl) List.Forall₂.nil)
  have hks : List.Forall₂ (· < ·) [i, j] [3, 4] :=
    List.Forall₂.cons hi (List.Forall₂.cons hj List.Forall₂.nil)
  have hrv : ravel [3, 4] [i, j] = i * 4 + j := by simp [ravel, prodl]
  have hb0 : bcast_index [3, 1] [3, 4] (i * 4 + j) = i := by
    have h := bcast_index_ravel [3, 1] [3, 4] [i, j] hcompat0 hks
    rw [hrv] at h
    rw [h]
    norm_num [ravel, prodl]
  have hb1 : bcast_index [1, 4] [3, 4] (i * 4 + j) = j := by
    have h := bcast_index_ravel [1, 4] [3, 4] [i, j] hcompat1 hks
    rw [hrv] at h
    rw [h]
    norm_num [ravel, prodl]
  rw [getD_range_map _ 12 (i * 4 + j) (by omega), hb0, hb1]

/-- C3 witness: concrete tensors of shapes (3,1) and (1,4) with addition,
evaluated at element (2,3). -/
theorem tensor_broadcast_gather_correct_witness :
    tensor_common_shape [[3, 1], [1, 4]] = .ok [3, 4] ∧
    (∃ flat, (apply_tensor ApplyMode.Normal
        (fun xs : List Nat => match xs with | [a, b] => some (a + b) | _ => none)
        ⟨[3, 1], [100, 200, 300]⟩ ⟨[1, 4], [1, 2, 3, 4]⟩).res = .ok ⟨[3, 4], flat⟩ ∧
      flat.getD (2 * 4 + 3) default =
        ([100, 200, 300].getD 2 default) + ([1, 2, 3, 4].getD 3 default)) ∧
    (∀ src dst ks : List Nat,
      List.Forall₂ (fun s d => s = 1 ∨ s = d) src dst →
      List.Forall₂ (· < ·) ks dst →
      bcast_index src dst (ravel dst ks) =
        ravel src (List.zipWith (fun s k => if s = 1 then 0 else k) src ks)) :=
  tensor_broadcast_gather_correct (· + ·) [100, 200, 300] [1, 2, 3, 4]
    rfl rfl 2 3 (by omega) (by omega)

/-! ### C4: rank and extent reconciliation rules -/

/-- Transcription of the C4 claim sentence for the comparison: ranks are
compatible when every two operands have equal ranks or one of them has
rank 0, and for each dimension below the maximal rank the common extent is
the maximum among operands HAVING that dimension (rank-0 operands
excluded), each operand having the dimension needing extent 1 or that
common extent there. -/
def claim_c4_ok (shapes : List (List Nat)) : Bool :=
  (shapes.all (fun s1 => shapes.all (fun s2 =>
    s1.length = s2.length ∨ s1.length = 0 ∨ s2.length = 0))) &&
  ((List.range (maxv (shapes.map List.length))).all (fun i =>
    shapes.all (fun s =>
      s.length = 0 ∨ s.getD i 0 = 1 ∨
        s.getD i 0 =
          maxv ((shapes.filter (fun t => t.length ≠ 0)).map (fun t => t.getD i 0)))))

/-- C4 counterexample: for the operand shapes (0,) and () the claim finds
no incompatibility (the only operand having the single dimension has
extent 0, which equals the claimed common extent max of the above, namely 0),
yet apply_tensor computes the per-dimension maximum over ALL operands with
rank-0 operands contributing extent 1 (line 381), obtains 1, and reports
the aggregated incompatible-shapes diagnostic. -/
theorem tensor_shape_claim_counterexample :
    claim_c4_ok [[0], []] = true ∧
    tensor_common_shape [[0], []] = .error (shape_error_msg [[0], []]) :=
  ⟨rfl, rfl⟩

theorem build_shape_some (shapes : List (List Nat)) :
    ∀ l : List Nat, (∀ i ∈ l, badDim shapes i = false) →
      build_shape shapes l =
        some (l.map (fun i => maxv (shapes.map (fun t => extAt t i))))
  | [], _ => rfl
  | i :: rest, h => by
    have hi := h i (List.mem_cons_self i rest)
    have hrest := build_shape_some shapes rest
      (fun x hx => h x (List.mem_cons_of_mem _ hx))
    simp [build_shape, hi, hrest]

theorem build_shape_none (shapes : List (List Nat)) :
    ∀ l : List Nat, (∃ i ∈ l, badDim shapes i = true) →
      build_shape shapes l = none
  | [], h => absurd h (by simp)
  | i :: rest, h => by
    by_cases hi : badDim shapes i = true
    · simp [build_shape, hi]
    · have hrest : build_shape shapes rest = none := by
        apply build_shape_none shapes rest
        rcases h with ⟨x, hx, hbad⟩
        rcases List.mem_cons.mp hx with rfl | hx2
        · exact absurd hbad hi
        · exact ⟨x, hx2, hbad⟩
      simp [build_shape, hi, hrest]

theorem badDim_pair (s1 s2 : List Nat) (i : Nat) :
    badDim [s1, s2] i = true ↔
      ((extAt s1 i ≠ max (extAt s1 i) (extAt s2 i) ∧ extAt s1 i ≠ 1) ∨
       (extAt s2 i ≠ max (extAt s1 i) (extAt s2 i) ∧ extAt s2 i ≠ 1)) := by
  have hm : maxv [extAt s1 i, extAt s2 i] = max (extAt s1 i) (extAt s2 i) := by
    simp [maxv, Nat.max_comm]
  simp only [badDim, List.map_cons, List.map_nil, List.any_cons, List.any_nil,
    Bool.or_false, Bool.or_eq_true, decide_eq_true_eq, hm]
  constructor
  · rintro (⟨ha, hb, _⟩ | ⟨ha, hb, _⟩)
    · exact Or.inl ⟨ha, hb⟩
    · exact Or.inr ⟨ha, hb⟩
  · rintro (⟨ha, hb⟩ | ⟨ha, hb⟩)
    · refine Or.inl ⟨ha, hb, fun h0 => hb (by simp [extAt, h0])⟩
    · refine Or.inr ⟨ha, hb, fun h0 => hb (by simp [extAt, h0])⟩

/-- C4 (amended): for two tensor operands the common rank is the maximum
operand rank and the operation is incompatible when the two ranks are
unequal and both non-zero (rank 0 broadcasts against anything); for each
dimension the common extent is the maximum of the operand extents where a
rank-0 operand contributes extent 1 in every dimension, and the operation
is incompatible when some operand extent there is neither 1 nor the common
extent; every incompatibility is reported as one single aggregated
diagnostic naming both operand shapes, never a per-operand partial
error. -/
theorem tensor_common_shape_spec (s1 s2 : List Nat) :
    (((s1.length ≠ s2.length ∧ s1.length ≠ 0 ∧ s2.length ≠ 0) ∨
      (∃ i, i < max s1.length s2.length ∧
        ((extAt s1 i ≠ max (extAt s1 i) (extAt s2 i) ∧ extAt s1 i ≠ 1) ∨
         (extAt s2 i ≠ max (extAt s1 i) (extAt s2 i) ∧ extAt s2 i ≠ 1)))) →
      ∃ p q r, tensor_common_shape [s1, s2] =
        .error (p ++ cast_shape_str s1 ++ q ++ cast_shape_str s2 ++ r)) ∧
    (¬ (s1.length ≠ s2.length ∧ s1.length ≠ 0 ∧ s2.length ≠ 0) →
      (∀ i, i < max s1.length s2.length →
        ¬ ((extAt s1 i ≠ max (extAt s1 i) (extAt s2 i) ∧ extAt s1 i ≠ 1) ∨
           (extAt s2 i ≠ max (extAt s1 i) (extAt s2 i) ∧ extAt s2 i ≠ 1))) →
      tensor_common_shape [s1, s2] =
        .ok ((List.range (max s1.length s2.length)).map
          (fun i => max (extAt s1 i) (extAt s2 i)))) := by
  have hnd : maxv (List.map List.length [s1, s2]) = max s1.length s2.length := by
    simp [maxv, Nat.max_comm]
  constructor
  · rintro (hrank | ⟨i, hilt, hbad⟩)
    · have hro : ¬ (([s1, s2] : List (List Nat)).length ≤ 1 ∨
          ∀ nd ∈ List.map List.length [s1, s2],
            maxv (List.map List.length [s1, s2]) = nd ∨ nd = 0) := by
        push_neg
        refine ⟨by simp, ?_⟩
        rcases hrank with ⟨hne, h10, h20⟩
        rcases Nat.lt_or_ge s1.length s2.length with hlt | hge
        · exact ⟨s1.length, by simp, by rw [hnd]; omega, h10⟩
        · have hlt2 : s2.length < s1.length := by omega
          exact ⟨s2.length, by simp, by rw [hnd]; omega, h20⟩
      refine ⟨"Operands have incompatible shapes: ", " and ", ".", ?_⟩
      simp only [tensor_common_shape]
      rw [if_neg hro]
      rfl
    · by_cases hro : (([s1, s2] : List (List Nat)).length ≤ 1 ∨
          ∀ nd ∈ List.map List.length [s1, s2],
            maxv (List.map List.length [s1, s2]) = nd ∨ nd = 0)
      · have hbadb : badDim [s1, s2] i = true := (badDim_pair s1 s2 i).mpr hbad
        have hnone : build_shape [s1, s2]
            (List.range (maxv (List.map List.length [s1, s2]))) = none :=
          build_shape_none _ _
            ⟨i, by rw [hnd]; exact List.mem_range.mpr hilt, hbadb⟩
        refine ⟨"Operands have incompatible shapes: ", " and ", ".", ?_⟩
        simp only [tensor_common_shape]
        rw [if_pos hro, hnone]
        rfl
      · refine ⟨"Operands have incompatible shapes: ", " and ", ".", ?_⟩
        simp only [tensor_common_shape]
        rw [if_neg hro]
        rfl
  · intro hrank hdims
    have hro : (([s1, s2] : List (List Nat)).length ≤ 1 ∨
        ∀ nd ∈ List.map List.length [s1, s2],
          maxv (List.map List.length [s1, s2]) = nd ∨ nd = 0) := by
      right
      intro nd hmem
      push_neg at hrank
      rw [hnd]
      rcases List.mem_cons.mp hmem with rfl | hmem2
      · omega
      · rcases List.mem_singleton.mp (by simpa using hmem2) with rfl
        omega
    have hall : ∀ x ∈ List.range (maxv (List.map List.length [s1, s2])),
        badDim [s1, s2] x = false := by
      intro x hx
      have hxlt : x < max s1.length s2.length := by
        rw [← hnd]
        exact List.mem_range.mp hx
      rcases Bool.eq_false_or_eq_true (badDim [s1, s2] x) with ht | hf
      · exact absurd ((badDim_pair s1 s2 x).mp ht) (hdims x hxlt)
      · exact hf
    have hsome := build_shape_some [s1, s2]
      (List.range (maxv (List.map List.length [s1, s2]))) hall
    simp only [tensor_common_shape]
    rw [if_pos hro, hsome, hnd]
    show Except.ok (List.map (fun i => maxv (List.map (fun t => extAt t i) [s1, s2]))
      (List.range (max s1.length s2.length))) = _
    congr 1
    apply List.map_congr_left
    intro x _
    simp [maxv, Nat.max_comm]

/-- C4 witness for the amended claim: shapes (3,1) and (1,4) are
compatible and reconcile to the per-dimension maxima (3,4). -/
theorem tensor_common_shape_spec_witness :
    tensor_common_shape [[3, 1], [1, 4]] =
      .ok ((List.range (max ([3, 1] : List Nat).length ([1, 4] : List Nat).length)).map
        (fun i => max (extAt [3, 1] i) (extAt [1, 4] i))) :=
  (tensor_common_shape_spec [3, 1] [1, 4]).2 (by decide) (by decide)

/-! ### Pytrees: paired traversal and transform -/

/-- Python object tree (pytree) as walked by traverse, traverse_pair and
transform (apply.cpp lines 448-659): a drjit array leaf, a tuple, a list,
a dict (ordered key-value pairs, as Python dicts preserve insertion
order), a user aggregate exposing the ordered DRJIT_STRUCT field map, or
any other object, which the walkers treat as an opaque non-tree value. -/
inductive PyTree (A B : Type) where
  | leaf (a : A)
  | tup (xs : List (PyTree A B))
  | lst (xs : List (PyTree A B))
  | dict (kvs : List (String × PyTree A B))
  | dstruct (fields : List (String × PyTree A B))
  | other (b : B)

mutual
/-- traverse_pair from apply.cpp lines 498-576, returning the list of leaf
pairs handed to the visitor in order, together with the message of the
first structural mismatch.  The type check tp1.is(tp2) at line 504 runs
before anything else, so differing container kinds fail before any
descent; two aggregates of the same Python type share one DRJIT_STRUCT, so
differing field lists model differing types.  Sequences check lengths
(lines 535-538) before recursing per index; dicts compare their ordered
key lists (d1.keys().equal(d2.keys()), line 545) before recursing per key,
where d1[k] and d2[k] are the positionally corresponding values since
Python dict keys are unique.  A drjit leaf pair is handed to the visitor
(lines 511-528; depth-1 arrays and tensor flat arrays are the modelled
leaves). -/
def traverse_pair : PyTree A B → PyTree A B → List (A × A) × Option String
  | .leaf a1, .leaf a2 => ([(a1, a2)], none)
  | .tup xs, .tup ys =>
    if xs.length ≠ ys.length then
      ([], some ("Incompatible input lengths (" ++ toString xs.length ++
        " and " ++ toString ys.length ++ ")."))
    else traverse_pair_list xs ys
  | .lst xs, .lst ys =>
    if xs.length ≠ ys.length then
      ([], some ("Incompatible input lengths (" ++ toString xs.length ++
        " and " ++ toString ys.length ++ ")."))
    else traverse_pair_list xs ys
  | .dict kv1, .dict kv2 =>
    if kv1.map Prod.fst ≠ kv2.map Prod.fst then
      ([], some "Dictionaries have mismatched keys.")
    else traverse_pair_kvs kv1 kv2
  | .dstruct f1, .dstruct f2 =>
    if f1.map Prod.fst ≠ f2.map Prod.fst then
      ([], some "Mismatched input types.")
    else traverse_pair_kvs f1 f2
  | .other _, .other _ => ([], none)
  | _, _ => ([], some "Mismatched input types.")

/-- Lock-step walk over the children of two sequences of equal length
(apply.cpp lines 539-540): the visits of the failing child are kept and
the walk stops at the first error. -/
def traverse_pair_list :
    List (PyTree A B) → List (PyTree A B) → List (A × A) × Option String
  | x :: xs, y :: ys =>
    match traverse_pair x y with
    | (v, some e) => (v, some e)
    | (v, none) =>
      match traverse_pair_list xs ys with
      | (v2, e) => (v ++ v2, e)
  | _, _ => ([], none)

/-- Lock-step walk over the values of two key-value lists with identical
key lists (apply.cpp lines 547-548 for dicts and 552-555 for DRJIT_STRUCT
fields). -/
def traverse_pair_kvs :
    List (String × PyTree A B) → List (String × PyTree A B) →
      List (A × A) × Option String
  | (_, x) :: xs, (_, y) :: ys =>
    match traverse_pair x y with
    | (v, some e) => (v, some e)
    | (v, none) =>
      match traverse_pair_kvs xs ys with
      | (v2, e) => (v ++ v2, e)
  | _, _ => ([], none)
end

/-- Container kind of a pytree node, standing for the Python type compared
by tp1.is(tp2) at apply.cpp line 504. -/
def ctorKind : PyTree A B → Nat
  | .leaf _ => 0
  | .tup _ => 1
  | .lst _ => 2
  | .dict _ => 3
  | .dstruct _ => 4
  | .other _ => 5

mutual
/-- transform from apply.cpp lines 582-659 with the default identity type
hook (transform_type, lines 578-580): an array leaf is rebuilt through the
callback (modelled by the leaf function f); tuples (lines 616-623), lists
(lines 624-627), dicts (lines 629-633) and DRJIT_STRUCT aggregates
(lines 634-640) are rebuilt with the same length, keys and field order
with every child transformed; any other object is returned unchanged
(borrow(h1), line 642). -/
def transform (f : A → A) : PyTree A B → PyTree A B
  | .leaf a => .leaf (f a)
  | .tup xs => .tup (transform_list f xs)
  | .lst xs => .lst (transform_list f xs)
  | .dict kvs => .dict (transform_kvs f kvs)
  | .dstruct fs => .dstruct (transform_kvs f fs)
  | .other b => .other b

/-- Children loop of transform over sequence elements. -/
def transform_list (f : A → A) : List (PyTree A B) → List (PyTree A B)
  | [] => []
  | x :: xs => transform f x :: transform_list f xs

/-- Children loop of transform over dict entries and aggregate fields. -/
def transform_kvs (f : A → A) :
    List (String × PyTree A B) → List (String × PyTree A B)
  | [] => []
  | (k, v) :: rest => (k, transform f v) :: transform_kvs f rest
end

mutual
theorem transform_id_aux : ∀ t : PyTree A B, transform (fun a => a) t = t
  | .leaf a => by rw [transform]
  | .tup xs => by rw [transform, transform_list_id_aux xs]
  | .lst xs => by rw [transform, transform_list_id_aux xs]
  | .dict kvs => by rw [transform, transform_kvs_id_aux kvs]
  | .dstruct fs => by rw [transform, transform_kvs_id_aux fs]
  | .other b => by rw [transform]

theorem transform_list_id_aux :
    ∀ xs : List (PyTree A B), transform_list (fun a => a) xs = xs
  | [] => by rw [transform_list]
  | x :: xs => by
    rw [transform_list, transform_id_aux x, transform_list_id_aux xs]

theorem transform_kvs_id_aux :
    ∀ kvs : List (String × PyTree A B), transform_kvs (fun a => a) kvs = kvs
  | [] => by rw [transform_kvs]
  | (k, v) :: rest => by
    rw [transform_kvs, transform_id_aux v, transform_kvs_id_aux rest]
end

/-- C7: paired traversal asserts identical structure before any descent:
differing container kinds fail immediately with the mismatched-types error
and no visited pair; tuples or lists of differing lengths fail with the
incompatible-lengths error and no visited pair; dicts with differing key
lists (in particular differing key sets) fail with the mismatched-keys
error and no visited pair; and over two dicts with the identical keys
"a" and "b" holding array leaves the visitor receives exactly the two
corresponding pairs, in key order. -/
theorem traverse_pair_structure :
    (∀ t1 t2 : PyTree A B, ctorKind t1 ≠ ctorKind t2 →
      traverse_pair t1 t2 = ([], some "Mismatched input types.")) ∧
    (∀ xs ys : List (PyTree A B), xs.length ≠ ys.length →
      traverse_pair (.tup xs) (.tup ys) =
        ([], some ("Incompatible input lengths (" ++ toString xs.length ++
          " and " ++ toString ys.length ++ ").")) ∧
      traverse_pair (.lst xs) (.lst ys) =
        ([], some ("Incompatible input lengths (" ++ toString xs.length ++
          " and " ++ toString ys.length ++ ").")))  ∧
    (∀ kv1 kv2 : List (String × PyTree A B),
      kv1.map Prod.fst ≠ kv2.map Prod.fst →
      traverse_pair (.dict kv1) (.dict kv2) =
        ([], some "Dictionaries have mismatched keys.")) ∧
    (∀ x1 x2 y1 y2 : A,
      traverse_pair (PyTree.dict (B := B) [("a", .leaf x1), ("b", .leaf x2)])
        (.dict [("a", .leaf y1), ("b", .leaf y2)]) =
        ([(x1, y1), (x2, y2)], none)) := by
  refine ⟨?_, ?_, ?_, ?_⟩
  · intro t1 t2 h
    cases t1 <;> cases t2 <;> simp_all [traverse_pair, ctorKind]
  · intro xs ys h
    constructor <;> simp [traverse_pair, h]
  · intro kv1 kv2 h
    simp [traverse_pair, h]
  · intro x1 x2 y1 y2
    simp [traverse_pair, traverse_pair_kvs]

/-- C7 witness: dicts with keys a versus b fail with the mismatched-keys
error and no visits; dicts with the identical keys a, b visit exactly the
two corresponding pairs. -/
theorem traverse_pair_structure_witness :
    traverse_pair (PyTree.dict (B := Nat) [("a", PyTree.leaf (1 : Nat))])
      (.dict [("b", .leaf 2)]) = ([], some "Dictionaries have mismatched keys.") ∧
    traverse_pair (PyTree.dict (B := Nat) [("a", PyTree.leaf (1 : Nat)), ("b", .leaf 2)])
      (.dict [("a", .leaf 3), ("b", .leaf 4)]) = ([(1, 3), (2, 4)], none) :=
  ⟨(traverse_pair_structure).2.2.1 [("a", PyTree.leaf 1)] [("b", PyTree.leaf 2)]
      (by decide),
   (traverse_pair_structure).2.2.2 1 2 3 4⟩

/-- C8: transform with the identity leaf function reproduces the tree: the
result has the same container kinds, lengths, keys and field order and is
equal to the input, and an opaque non-tree leaf is passed through
unchanged by transform with any leaf function. -/
theorem transform_id_roundtrip (t : PyTree A B) :
    transform (fun a => a) t = t ∧
    ∀ (f : A → A) (b : B), transform f (PyTree.other b) = PyTree.other b :=
  ⟨transform_id_aux t, fun f b => by rw [transform]⟩
